import Mathlib

/-!
Shallow embedding of the quantile ensemble inference engine of this
repository: the prediction pipeline in src/src/pipeline/predict_pipeline.py
(functions _prepare_features, _predict_xgb, _predict_tft, predict_df) and
the ensemble predictor in src/src/models/ensemble.py (predict_ensemble).

Machine floats are modelled as exact rationals.  Trained model artifacts
(XGBoost boosters, the torch TFT network) are opaque learned functions, so a
scorer is modelled as an arbitrary function from the feature frame to a
vector of rationals; an optional artifact (spike boosters, the TFT model)
is an Option.  A pandas DataFrame is modelled as an association list from
column names to columns.
-/

namespace AgentsAI

/-- A pandas DataFrame: an association list from column name to column data.
The row count of a frame is the length of its first column. -/
abbrev Frame := List (String × List ℚ)

/-- Number of rows of a frame (length of its first column, 0 if empty). -/
def Frame.nrows (df : Frame) : Nat :=
  match df with
  | [] => 0
  | (_, c) :: _ => c.length

/-- Whether a frame has a column of the given name. -/
def Frame.hasCol (df : Frame) (name : String) : Bool :=
  (df.lookup name).isSome

/-- The loaded model artifacts, each modelled as an opaque scorer function
from the feature frame to a vector of per-row floats.  The three base
quantile scorers are mandatory; the spike boosters and the TFT secondary
median estimator are Option, with none meaning the artifact file is absent
(_load_spike_model / _load_extreme_spike_model return None; the TFT
artifact is loaded by torch.load, which raises when the file is missing). -/
structure Scorers where
  q10 : Frame → List ℚ
  q50 : Frame → List ℚ
  q90 : Frame → List ℚ
  spike : Option (Frame → List ℚ)
  extreme : Option (Frame → List ℚ)
  tft : Option (Frame → List ℚ)

/-- The output table of the engine: per-row lower, median and upper vectors
(predict_pipeline.py lines 225-230; the date passthrough column is not
modelled). -/
structure Triple where
  lower : List ℚ
  median : List ℚ
  upper : List ℚ
deriving DecidableEq, Repr

/-- Python exceptions the prediction entry points can raise. -/
inductive PredictError where
  /-- ValueError for a mode outside the allowed set (predict_pipeline.py
  lines 211-212). -/
  | invalidMode : PredictError
  /-- ValueError raised by predict_ensemble naming the missing feature
  columns (ensemble.py lines 40-42). -/
  | missingFeatures (missing : List String) : PredictError
  /-- FileNotFoundError from torch.load on a missing artifact path
  (tft_model.py lines 68-72). -/
  | fileNotFound (path : String) : PredictError
deriving DecidableEq, Repr

/-- The consistency epsilon 1e-6 (predict_pipeline.py lines 194-195). -/
def eps : ℚ := 1 / 1000000

/-- The 41 feature columns expected by the XGBoost models, in the order of
predict_pipeline.py lines 24-39. -/
def XGB_FEATURES : List String :=
  ["lag_1_admissions", "lag_7_admissions", "rolling_14_admissions",
   "aqi", "temp", "humidity", "rainfall", "wind_speed",
   "mobility_index", "outbreak_index",
   "festival_flag", "holiday_flag", "weekday", "is_weekend",
   "population_density", "hospital_beds", "staff_count",
   "city_id", "hospital_id_enc", "month",
   "week_of_year", "quarter", "season",
   "day_sin", "day_cos", "month_sin", "month_cos",
   "aqi_above_150", "aqi_above_200", "aqi_above_300", "aqi_severity",
   "temp_humidity", "rainfall_injury_risk", "aqi_respiratory_ratio",
   "aqi_temp", "mobility_outbreak", "temp_rainfall", "aqi_mobility",
   "lag1_aqi", "lag7_outbreak", "rolling_aqi"]

/-- The duplicate feature list of ensemble.py lines 12-26. -/
def ENSEMBLE_FEATURES : List String :=
  ["lag_1_admissions", "lag_7_admissions", "rolling_14_admissions",
   "aqi", "temp", "humidity", "rainfall", "wind_speed",
   "mobility_index", "outbreak_index",
   "festival_flag", "holiday_flag",
   "weekday", "is_weekend",
   "population_density", "hospital_beds", "staff_count",
   "city_id", "hospital_id_enc",
   "month", "week_of_year", "quarter", "season",
   "day_sin", "day_cos", "month_sin", "month_cos",
   "aqi_above_150", "aqi_above_200", "aqi_above_300", "aqi_severity",
   "temp_humidity", "rainfall_injury_risk", "aqi_respiratory_ratio",
   "aqi_temp", "mobility_outbreak", "temp_rainfall", "aqi_mobility",
   "lag1_aqi", "lag7_outbreak", "rolling_aqi"]

/-- Linear interpolation step of numpy percentile: index into the sorted
data at a fractional position. -/
def linInterp (s : List ℚ) (pos : ℚ) : ℚ :=
  let i := (⌊pos⌋).toNat
  s.getD i 0 + (pos - (i : ℚ)) * (s.getD (min (i + 1) (s.length - 1)) 0 - s.getD i 0)

/-- np.percentile with the default linear interpolation: sort the data and
linearly interpolate at virtual position q * (n - 1) / 100. -/
def percentile (l : List ℚ) (q : ℚ) : ℚ :=
  let s := l.insertionSort (· ≤ ·)
  if s.length = 0 then 0
  else linInterp s (q * ((s.length : ℚ) - 1) / 100)

/-- Stage-1 spike scaling of one row for batches of more than 10 rows
(predict_pipeline.py lines 125-136): cumulative multipliers 2x, 3x, 4x
above the batch's 90th, 95th and 99th percentile of the raw signal. -/
def stage1Row (p90 p95 p99 v : ℚ) : ℚ :=
  let s1 := if v > p90 then v * 2 else v
  let s2 := if v > p95 then s1 * (3 / 2) else s1
  if v > p99 then s2 * (4 / 3) else s2

/-- Stage-1 spike scaling of one row for batches of at most 10 rows
(predict_pipeline.py lines 137-141): fixed thresholds 30 and 60,
each crossing doubling the value (4x total above 60). -/
def stage1RowSmall (v : ℚ) : ℚ :=
  let s1 := if v > 30 then v * 2 else v
  if v > 60 then s1 * 2 else s1

/-- Stage-1 spike scaling of the whole batch (predict_pipeline.py
lines 122-142). -/
def stage1Scale (c : List ℚ) : List ℚ :=
  if c.length > 10 then
    c.map (stage1Row (percentile c 90) (percentile c 95) (percentile c 99))
  else
    c.map stage1RowSmall

/-- Stage-2 extreme spike scaling of one row for batches of more than 10
rows (predict_pipeline.py lines 153-164): cumulative multipliers 5x,
6.5x, 8x. -/
def stage2Row (p90 p95 p99 v : ℚ) : ℚ :=
  let s1 := if v > p90 then v * 5 else v
  let s2 := if v > p95 then s1 * (13 / 10) else s1
  if v > p99 then s2 * (16 / 13) else s2

/-- Stage-2 extreme spike scaling of one row for batches of at most 10 rows
(predict_pipeline.py lines 165-169): thresholds 20 (times 5) and 40
(times 1.6, so 8x total). -/
def stage2RowSmall (v : ℚ) : ℚ :=
  let s1 := if v > 20 then v * 5 else v
  if v > 40 then s1 * (8 / 5) else s1

/-- Stage-2 extreme spike scaling of the whole batch (predict_pipeline.py
lines 150-170). -/
def stage2Scale (c : List ℚ) : List ℚ :=
  if c.length > 10 then
    c.map (stage2Row (percentile c 90) (percentile c 95) (percentile c 99))
  else
    c.map stage2RowSmall

/-- Total spike adjustment vector (predict_pipeline.py lines 116-171):
starts as zeros of the batch size and accumulates the scaled output of
each correction stage that is present. -/
def spikeTotalOf (n : Nat) (sp ex : Option (List ℚ)) : List ℚ :=
  let zeroes := List.replicate n (0 : ℚ)
  let t1 :=
    match sp with
    | none => zeroes
    | some c => List.zipWith (· + ·) zeroes (stage1Scale c)
  match ex with
  | none => t1
  | some c => List.zipWith (· + ·) t1 (stage2Scale c)

/-- Whether any entry of the adjustment vector is nonzero
(np.any(spike_adj_total != 0), predict_pipeline.py line 174). -/
def anyNonzero (l : List ℚ) : Bool :=
  l.any (fun v => v != 0)

/-- Adding the total spike adjustment to all three quantile vectors
(predict_pipeline.py lines 175-177). -/
def correctedTriple (low med up st : List ℚ) : List ℚ × List ℚ × List ℚ :=
  (List.zipWith (· + ·) low st, List.zipWith (· + ·) med st,
   List.zipWith (· + ·) up st)

/-- Widening threshold for extreme predictions (predict_pipeline.py
line 180): the batch's 90th percentile of corrected medians, or the
absolute fallback 200 for batches of at most 10 rows. -/
def widenThr (med : List ℚ) : ℚ :=
  if med.length > 10 then percentile med 90 else 200

/-- Lower bound after band widening of one row (predict_pipeline.py
lines 183-185): rows whose corrected median exceeds the threshold get
lower = center - band_width * 0.75. -/
def widenRowLow (thr m l u : ℚ) : ℚ :=
  if m > thr then (u + l) / 2 - (u - l) * (3 / 4) else l

/-- Upper bound after band widening of one row (predict_pipeline.py
lines 183-186). -/
def widenRowUp (thr m l u : ℚ) : ℚ :=
  if m > thr then (u + l) / 2 + (u - l) * (3 / 4) else u

/-- Three-list pointwise map, used to apply the widening row functions. -/
def zipWith3 (f : ℚ → ℚ → ℚ → ℚ) : List ℚ → List ℚ → List ℚ → List ℚ
  | a :: as, b :: bs, c :: cs => f a b c :: zipWith3 f as bs cs
  | _, _, _ => []

/-- The correction block of _predict_xgb (predict_pipeline.py
lines 174-192): if any total adjustment is nonzero, shift all three
vectors by it and widen the bands of rows whose corrected median exceeds
the widening threshold; otherwise leave the vectors unchanged. -/
def afterCorrection (low med up st : List ℚ) : List ℚ × List ℚ × List ℚ :=
  if anyNonzero st then
    let t := correctedTriple low med up st
    let low1 := t.1
    let med1 := t.2.1
    let up1 := t.2.2
    let thr := widenThr med1
    (zipWith3 (widenRowLow thr) med1 low1 up1, med1,
     zipWith3 (widenRowUp thr) med1 low1 up1)
  else (low, med, up)

/-- The final ordering clamp on the lower vector (predict_pipeline.py
line 194): lower = min(lower, median - 1e-6). -/
def clampLow (low med : List ℚ) : List ℚ :=
  List.zipWith (fun l m => min l (m - eps)) low med

/-- The final ordering clamp on the upper vector (predict_pipeline.py
line 195): upper = max(upper, median + 1e-6). -/
def clampUp (up med : List ℚ) : List ℚ :=
  List.zipWith (fun u m => max u (m + eps)) up med

/-- The numeric core of _predict_xgb (predict_pipeline.py lines 111-197),
taking the raw per-row outputs of the three base quantile scorers and the
optional raw outputs of the two spike correction scorers: apply the fixed
margin offsets (q10 - 0.5, q90 + 0.5), the spike correction cascade with
band widening, and the final ordering clamp. -/
def predictXgb (q10v q50v q90v : List ℚ) (sp ex : Option (List ℚ)) :
    List ℚ × List ℚ × List ℚ :=
  let predsMed := q50v
  let predsLow := q10v.map (fun v => v - 1 / 2)
  let predsUp := q90v.map (fun v => v + 1 / 2)
  let st := spikeTotalOf predsMed.length sp ex
  let t := afterCorrection predsLow predsMed predsUp st
  (clampLow t.1 t.2.1, t.2.1, clampUp t.2.2 t.2.1)

/-- The feature preparation of _prepare_features (predict_pipeline.py
lines 64-71) from the point after feature engineering: every expected
feature column missing from the engineered frame is filled with zeros, and
the frame is restricted to the expected columns in order.  The upstream
lag-column synthesis and feature_engineering_xgb call (lines 46-62) are
not modelled; the embedding quantifies over the engineered frame. -/
def prepareFeatures (dfFe : Frame) : Frame :=
  XGB_FEATURES.map
    (fun f => (f, (dfFe.lookup f).getD (List.replicate (Frame.nrows dfFe) 0)))

/-- The feature matrix selection of predict_ensemble (ensemble.py
line 44), defined when no expected column is missing. -/
def ensembleMatrix (dfFe : Frame) : Frame :=
  ENSEMBLE_FEATURES.map (fun f => (f, (dfFe.lookup f).getD []))

/-- predict_ensemble (ensemble.py lines 36-71) from the point after
feature engineering: raise ValueError when expected feature columns are
missing, load the TFT model (FileNotFoundError when its artifact is
absent), blend the TFT median with the XGB median using the configured
weight, and derive the bounds with fixed margins of 1.0 around the
median. -/
def predictEnsemble (s : Scorers) (dfFe : Frame) (wtft : ℚ := 6 / 10) :
    Except PredictError Triple :=
  let missing := ENSEMBLE_FEATURES.filter (fun f => !(Frame.hasCol dfFe f))
  if missing ≠ [] then .error (.missingFeatures missing)
  else
    match s.tft with
    | none => .error (.fileNotFound "models/global_tft.pt")
    | some tftScorer =>
      let X := ensembleMatrix dfFe
      let q10p := (s.q10 X).map (fun v => v - 1 / 2)
      let q50p := s.q50 X
      let q90p := (s.q90 X).map (fun v => v + 1 / 2)
      let tftMed := tftScorer X
      let wxgb := 1 - wtft
      let median := List.zipWith (fun t m => wtft * t + wxgb * m) tftMed q50p
      let lower := List.zipWith min q10p (median.map (fun m => m - 1))
      let upper := List.zipWith max q90p (median.map (fun m => m + 1))
      .ok ⟨lower, median, upper⟩

/-- predict_df (predict_pipeline.py lines 210-230) from the point after
feature engineering: validate the mode, delegate mode ensemble to
predict_ensemble, otherwise prepare features and run the XGB path; in
mode tft additionally load the TFT model (FileNotFoundError when its
artifact is absent) and overwrite the median with the blend
0.6 * tft_median + 0.4 * median hardcoded at line 223. -/
def predictDf (s : Scorers) (dfFe : Frame) (mode : String := "xgb")
    (wtft : ℚ := 6 / 10) : Except PredictError Triple :=
  if ¬(mode = "xgb" ∨ mode = "tft" ∨ mode = "ensemble") then
    .error .invalidMode
  else if mode = "ensemble" then
    predictEnsemble s dfFe wtft
  else
    let dfModel := prepareFeatures dfFe
    let t := predictXgb (s.q10 dfModel) (s.q50 dfModel) (s.q90 dfModel)
      (s.spike.map (fun f => f dfModel)) (s.extreme.map (fun f => f dfModel))
    if mode = "tft" then
      match s.tft with
      | none => .error (.fileNotFound "models/global_tft.pt")
      | some tftScorer =>
        let tftMed := tftScorer dfModel
        .ok ⟨t.1, List.zipWith (fun tm m => (6 / 10) * tm + (4 / 10) * m) tftMed t.2.1, t.2.2⟩
    else
      .ok ⟨t.1, t.2.1, t.2.2⟩

/-- The cumulative stage-1 tier multiplier factored out of stage1Row: the
product of the mask factors of predict_pipeline.py lines 127-136. -/
def stage1Mult (p90 p95 p99 v : ℚ) : ℚ :=
  (if v > p90 then 2 else 1) * (if v > p95 then 3 / 2 else 1) *
    (if v > p99 then 4 / 3 else 1)

/-- The triple computed by the XGB path of predict_df: _predict_xgb applied
to the scorer outputs on the prepared feature matrix
(predict_pipeline.py lines 218-219). -/
def xgbTriple (s : Scorers) (dfFe : Frame) : List ℚ × List ℚ × List ℚ :=
  predictXgb (s.q10 (prepareFeatures dfFe)) (s.q50 (prepareFeatures dfFe))
    (s.q90 (prepareFeatures dfFe))
    (s.spike.map (fun f => f (prepareFeatures dfFe)))
    (s.extreme.map (fun f => f (prepareFeatures dfFe)))

/-- Scorers returning constant single-row outputs, used to evaluate the
engine on concrete batches. -/
def constScorers (a b c : ℚ) (tft : Option ℚ) : Scorers where
  q10 := fun _ => [a]
  q50 := fun _ => [b]
  q90 := fun _ => [c]
  spike := none
  extreme := none
  tft := tft.map (fun v => fun _ => [v])

/-- A single-row engineered frame carrying every expected feature column. -/
def fullFrame : Frame := ENSEMBLE_FEATURES.map (fun f => (f, [1]))

/-! Helper lemmas about the embedded numpy operations. -/

theorem anyNonzero_replicate_zero (n : Nat) :
    anyNonzero (List.replicate n (0 : ℚ)) = false := by
  induction n with
  | zero => rfl
  | succ k ih => simp [anyNonzero, List.replicate_succ, ih]

theorem sorted_getD_mono (s : List ℚ) (hs : List.Sorted (· ≤ ·) s)
    (i j : Nat) (hij : i ≤ j) (hj : j < s.length) :
    s.getD i 0 ≤ s.getD j 0 := by
  have hi : i < s.length := lt_of_le_of_lt hij hj
  rw [List.getD_eq_getElem _ _ hi, List.getD_eq_getElem _ _ hj]
  simpa using hs.rel_get_of_le (a := ⟨i, hi⟩) (b := ⟨j, hj⟩) hij

theorem interp_formula_mono (s : List ℚ) (hs : List.Sorted (· ≤ ·) s)
    (i1 i2 : Nat) (p1 p2 : ℚ)
    (hle1 : (i1 : ℚ) ≤ p1) (hlt1 : p1 < (i1 : ℚ) + 1) (hle2 : (i2 : ℚ) ≤ p2)
    (h12 : p1 ≤ p2) (h12i : i1 ≤ i2) (hi2lt : i2 < s.length) :
    s.getD i1 0 + (p1 - (i1 : ℚ)) * (s.getD (min (i1 + 1) (s.length - 1)) 0 - s.getD i1 0)
      ≤ s.getD i2 0 + (p2 - (i2 : ℚ)) * (s.getD (min (i2 + 1) (s.length - 1)) 0 - s.getD i2 0) := by
  have hf1n : (0 : ℚ) ≤ p1 - (i1 : ℚ) := by linarith
  have hf2n : (0 : ℚ) ≤ p2 - (i2 : ℚ) := by linarith
  rcases eq_or_lt_of_le h12i with heq | hlt
  · subst heq
    have hminlt : min (i1 + 1) (s.length - 1) < s.length := by omega
    have hile : i1 ≤ min (i1 + 1) (s.length - 1) := by omega
    have hd : s.getD i1 0 ≤ s.getD (min (i1 + 1) (s.length - 1)) 0 :=
      sorted_getD_mono s hs _ _ hile hminlt
    have hmul := mul_le_mul_of_nonneg_right
      (show p1 - (i1 : ℚ) ≤ p2 - (i1 : ℚ) by linarith) (sub_nonneg.mpr hd)
    linarith
  · have hmin1 : min (i1 + 1) (s.length - 1) = i1 + 1 := by omega
    have hab : s.getD i1 0 ≤ s.getD (i1 + 1) 0 :=
      sorted_getD_mono s hs i1 (i1 + 1) (by omega) (by omega)
    have h1b : s.getD i1 0 + (p1 - (i1 : ℚ)) * (s.getD (i1 + 1) 0 - s.getD i1 0)
        ≤ s.getD (i1 + 1) 0 := by
      nlinarith [mul_nonneg (show (0 : ℚ) ≤ (i1 : ℚ) + 1 - p1 by linarith)
        (sub_nonneg.mpr hab)]
    have hb2 : s.getD (i1 + 1) 0 ≤ s.getD i2 0 :=
      sorted_getD_mono s hs _ _ (by omega) hi2lt
    have hd2 : s.getD i2 0 ≤ s.getD (min (i2 + 1) (s.length - 1)) 0 :=
      sorted_getD_mono s hs _ _ (by omega) (by omega)
    have h2c : s.getD i2 0
        ≤ s.getD i2 0 + (p2 - (i2 : ℚ)) * (s.getD (min (i2 + 1) (s.length - 1)) 0 - s.getD i2 0) := by
      nlinarith [mul_nonneg hf2n (sub_nonneg.mpr hd2)]
    rw [hmin1]
    linarith

theorem linInterp_mono (s : List ℚ) (hs : List.Sorted (· ≤ ·) s)
    (p1 p2 : ℚ) (h0 : 0 ≤ p1) (h12 : p1 ≤ p2)
    (h2 : p2 ≤ (s.length : ℚ) - 1) :
    linInterp s p1 ≤ linInterp s p2 := by
  have hf1 : (0 : ℤ) ≤ ⌊p1⌋ := Int.floor_nonneg.mpr h0
  have hf2 : (0 : ℤ) ≤ ⌊p2⌋ := le_trans hf1 (Int.floor_mono h12)
  have hc1 : ((⌊p1⌋.toNat : ℕ) : ℚ) = ((⌊p1⌋ : ℤ) : ℚ) := by
    exact_mod_cast Int.toNat_of_nonneg hf1
  have hc2 : ((⌊p2⌋.toNat : ℕ) : ℚ) = ((⌊p2⌋ : ℤ) : ℚ) := by
    exact_mod_cast Int.toNat_of_nonneg hf2
  have hle1 : ((⌊p1⌋.toNat : ℕ) : ℚ) ≤ p1 := by rw [hc1]; exact Int.floor_le p1
  have hlt1 : p1 < ((⌊p1⌋.toNat : ℕ) : ℚ) + 1 := by
    rw [hc1]; exact_mod_cast Int.lt_floor_add_one p1
  have hle2 : ((⌊p2⌋.toNat : ℕ) : ℚ) ≤ p2 := by rw [hc2]; exact Int.floor_le p2
  have h12i : ⌊p1⌋.toNat ≤ ⌊p2⌋.toNat := Int.toNat_le_toNat (Int.floor_mono h12)
  have hi2lt : ⌊p2⌋.toNat < s.length := by
    have hq : ((⌊p2⌋.toNat : ℕ) : ℚ) < (s.length : ℚ) := by linarith
    exact_mod_cast hq
  simp only [linInterp]
  exact interp_formula_mono s hs _ _ p1 p2 hle1 hlt1 hle2 h12 h12i hi2lt

theorem percentile_mono (l : List ℚ) (q1 q2 : ℚ)
    (h0 : 0 ≤ q1) (h12 : q1 ≤ q2) (h100 : q2 ≤ 100) :
    percentile l q1 ≤ percentile l q2 := by
  have hs : List.Sorted (· ≤ ·) (l.insertionSort (· ≤ ·)) :=
    List.sorted_insertionSort _ l
  simp only [percentile]
  by_cases h : (l.insertionSort (· ≤ ·)).length = 0
  · simp [h]
  · rw [if_neg h, if_neg h]
    have hpos : 1 ≤ (l.insertionSort (· ≤ ·)).length := Nat.pos_of_ne_zero h
    have hn1 : (0 : ℚ) ≤ ((l.insertionSort (· ≤ ·)).length : ℚ) - 1 := by
      have : (1 : ℚ) ≤ ((l.insertionSort (· ≤ ·)).length : ℚ) := by exact_mod_cast hpos
      linarith
    apply linInterp_mono _ hs
    · exact div_nonneg (mul_nonneg h0 hn1) (by norm_num)
    · have := mul_le_mul_of_nonneg_right h12 hn1
      linarith
    · have := mul_le_mul_of_nonneg_right h100 hn1
      linarith

theorem zipWith3_length (f : ℚ → ℚ → ℚ → ℚ) :
    ∀ (a b c : List ℚ),
      (zipWith3 f a b c).length = min a.length (min b.length c.length)
  | [], _, _ => by simp [zipWith3]
  | _ :: _, [], _ => by simp [zipWith3]
  | _ :: _, _ :: _, [] => by simp [zipWith3]
  | x :: a, y :: b, z :: c => by
    simp only [zipWith3, List.length_cons, zipWith3_length f a b c]
    omega

theorem zipWith3_getD (f : ℚ → ℚ → ℚ → ℚ) :
    ∀ (a b c : List ℚ) (i : Nat), i < a.length → i < b.length → i < c.length →
      (zipWith3 f a b c).getD i 0 = f (a.getD i 0) (b.getD i 0) (c.getD i 0)
  | _ :: _, _ :: _, _ :: _, 0, _, _, _ => rfl
  | x :: a, y :: b, z :: c, (i + 1), ha, hb, hc => by
    simpa [zipWith3] using zipWith3_getD f a b c i (by simpa using ha)
      (by simpa using hb) (by simpa using hc)
  | [], _, _, i, ha, _, _ => absurd ha (by simp)
  | _ :: _, [], _, i, _, hb, _ => absurd hb (by simp)
  | _ :: _, _ :: _, [], i, _, _, hc => absurd hc (by simp)

theorem lookup_map_pair (g : String → List ℚ) (f0 : String) :
    ∀ (l : List String), f0 ∈ l →
      (l.map (fun f => (f, g f))).lookup f0 = some (g f0)
  | [], h => absurd h (List.not_mem_nil f0)
  | f :: l, h => by
    by_cases he : f0 = f
    · subst he; simp [List.lookup]
    · have hmem : f0 ∈ l := by
        rcases List.mem_cons.mp h with h1 | h1
        · exact absurd h1 he
        · exact h1
      have hbe : (f0 == f) = false := beq_eq_false_iff_ne.mpr he
      simp only [List.map_cons, List.lookup, hbe]
      exact lookup_map_pair g f0 l hmem

theorem zipWith_getD (f : ℚ → ℚ → ℚ) (a b : List ℚ) (i : Nat)
    (ha : i < a.length) (hb : i < b.length) :
    (List.zipWith f a b).getD i 0 = f (a.getD i 0) (b.getD i 0) := by
  have h : i < (List.zipWith f a b).length := by
    rw [List.length_zipWith]; omega
  rw [List.getD_eq_getElem _ _ h, List.getElem_zipWith,
    List.getD_eq_getElem _ _ ha, List.getD_eq_getElem _ _ hb]

theorem map_getD (g : ℚ → ℚ) (a : List ℚ) (i : Nat) (ha : i < a.length) :
    (a.map g).getD i 0 = g (a.getD i 0) := by
  rw [List.getD_eq_getElem _ _ (by simpa using ha), List.getElem_map,
    List.getD_eq_getElem _ _ ha]

theorem features_eq : XGB_FEATURES = ENSEMBLE_FEATURES := rfl

/-! Reduction lemmas expressing each predict_df mode branch. -/

theorem predictDf_xgb_eq (s : Scorers) (dfFe : Frame) (w : ℚ) :
    predictDf s dfFe "xgb" w =
      .ok ⟨(xgbTriple s dfFe).1, (xgbTriple s dfFe).2.1, (xgbTriple s dfFe).2.2⟩ := rfl

theorem predictDf_tft_eq (s : Scorers) (dfFe : Frame) (w : ℚ) :
    predictDf s dfFe "tft" w =
      (match s.tft with
       | none => .error (.fileNotFound "models/global_tft.pt")
       | some tftScorer =>
         .ok ⟨(xgbTriple s dfFe).1,
              List.zipWith (fun tm m => (6 / 10) * tm + (4 / 10) * m)
                (tftScorer (prepareFeatures dfFe)) (xgbTriple s dfFe).2.1,
              (xgbTriple s dfFe).2.2⟩) := rfl

theorem predictDf_ensemble_eq (s : Scorers) (dfFe : Frame) (w : ℚ) :
    predictDf s dfFe "ensemble" w = predictEnsemble s dfFe w := rfl

theorem predictXgb_eq (q10v q50v q90v : List ℚ) (sp ex : Option (List ℚ)) :
    predictXgb q10v q50v q90v sp ex =
      (clampLow (afterCorrection (q10v.map (fun v => v - 1 / 2)) q50v
          (q90v.map (fun v => v + 1 / 2)) (spikeTotalOf q50v.length sp ex)).1
        (afterCorrection (q10v.map (fun v => v - 1 / 2)) q50v
          (q90v.map (fun v => v + 1 / 2)) (spikeTotalOf q50v.length sp ex)).2.1,
       (afterCorrection (q10v.map (fun v => v - 1 / 2)) q50v
          (q90v.map (fun v => v + 1 / 2)) (spikeTotalOf q50v.length sp ex)).2.1,
       clampUp (afterCorrection (q10v.map (fun v => v - 1 / 2)) q50v
          (q90v.map (fun v => v + 1 / 2)) (spikeTotalOf q50v.length sp ex)).2.2
        (afterCorrection (q10v.map (fun v => v - 1 / 2)) q50v
          (q90v.map (fun v => v + 1 / 2)) (spikeTotalOf q50v.length sp ex)).2.1) := rfl

theorem afterCorrection_pos (low med up st : List ℚ)
    (hnz : anyNonzero st = true) :
    afterCorrection low med up st =
      (zipWith3 (widenRowLow (widenThr (List.zipWith (· + ·) med st)))
         (List.zipWith (· + ·) med st) (List.zipWith (· + ·) low st)
         (List.zipWith (· + ·) up st),
       List.zipWith (· + ·) med st,
       zipWith3 (widenRowUp (widenThr (List.zipWith (· + ·) med st)))
         (List.zipWith (· + ·) med st) (List.zipWith (· + ·) low st)
         (List.zipWith (· + ·) up st)) := by
  simp [afterCorrection, correctedTriple, hnz]

theorem predictXgb_no_spike (q10v q50v q90v : List ℚ) :
    predictXgb q10v q50v q90v none none =
      (clampLow (q10v.map (fun v => v - 1 / 2)) q50v, q50v,
       clampUp (q90v.map (fun v => v + 1 / 2)) q50v) := by
  rw [predictXgb_eq]
  have hz : spikeTotalOf q50v.length (none : Option (List ℚ)) none
      = List.replicate q50v.length 0 := rfl
  rw [hz]
  have hnz : anyNonzero (List.replicate q50v.length (0 : ℚ)) = false :=
    anyNonzero_replicate_zero _
  simp [afterCorrection, hnz]

/-- C5: zero-correction idempotence.  If both correction scorers are
absent, the output of the xgb mode equals the base-quantile-bank output
after only the fixed margin offsets (q10 - 0.5, q50 unchanged, q90 + 0.5)
and the consistency clamp, with no other numeric change; in particular
base outputs q10 = 80, q50 = 120, q90 = 160 yield lower = 79.5,
median = 120, upper = 160.5 with lower < median < upper. -/
theorem C5_zero_correction_idempotence (s : Scorers) (dfFe : Frame) (w : ℚ)
    (h1 : s.spike = none) (h2 : s.extreme = none) :
    predictDf s dfFe "xgb" w =
      .ok ⟨List.zipWith (fun a m => min (a - 1 / 2) (m - eps))
             (s.q10 (prepareFeatures dfFe)) (s.q50 (prepareFeatures dfFe)),
           s.q50 (prepareFeatures dfFe),
           List.zipWith (fun b m => max (b + 1 / 2) (m + eps))
             (s.q90 (prepareFeatures dfFe)) (s.q50 (prepareFeatures dfFe))⟩
    ∧ predictXgb [80] [120] [160] none none = ([159 / 2], [120], [321 / 2])
    ∧ (159 / 2 : ℚ) < 120 ∧ (120 : ℚ) < 321 / 2 := by
  refine ⟨?_, ?_, by norm_num, by norm_num⟩
  case refine_2 =>
    rw [predictXgb_no_spike]
    norm_num [clampLow, clampUp, eps, min_def, max_def]
  rw [predictDf_xgb_eq]
  simp only [xgbTriple, h1, h2, Option.map_none', predictXgb_no_spike,
    clampLow, clampUp, List.zipWith_map_left]

/-- C5 witness: the theorem instantiated with constant scorers over an
empty frame, hypotheses discharged. -/
theorem C5_witness :
    predictDf (constScorers 80 120 160 none) [] "xgb" (6 / 10) =
      .ok ⟨List.zipWith (fun a m => min (a - 1 / 2) (m - eps))
             ((constScorers 80 120 160 none).q10 (prepareFeatures []))
             ((constScorers 80 120 160 none).q50 (prepareFeatures [])),
           (constScorers 80 120 160 none).q50 (prepareFeatures []),
           List.zipWith (fun b m => max (b + 1 / 2) (m + eps))
             ((constScorers 80 120 160 none).q90 (prepareFeatures []))
             ((constScorers 80 120 160 none).q50 (prepareFeatures []))⟩
    ∧ predictXgb [80] [120] [160] none none = ([159 / 2], [120], [321 / 2])
    ∧ (159 / 2 : ℚ) < 120 ∧ (120 : ℚ) < 321 / 2 :=
  C5_zero_correction_idempotence (constScorers 80 120 160 none) [] (6 / 10) rfl rfl

/-- C6: small-batch fallback for stage 1.  For every batch of at most 10
rows the stage-1 scaling is a pure map with fixed absolute thresholds
(signal above 30 doubled, above 60 quadrupled) and no percentile is
computed; in particular a single-row batch with raw correction 70 and
stage 2 absent gets the 4x multiplier, total correction 280, added to all
three of 79.5, 120, 160.5 before the widening and clamp steps. -/
theorem C6_small_batch_fallback (c : List ℚ) (h : c.length ≤ 10) :
    stage1Scale c =
      c.map (fun v => if v > 60 then 4 * v else if v > 30 then 2 * v else v)
    ∧ stage1Scale [70] = [280]
    ∧ spikeTotalOf 1 (some [70]) none = [280]
    ∧ correctedTriple [159 / 2] [120] [321 / 2] [280]
        = ([719 / 2], [400], [881 / 2]) := by
  refine ⟨?_, by norm_num [stage1Scale, stage1RowSmall],
    by norm_num [spikeTotalOf, stage1Scale, stage1RowSmall, List.replicate],
    by norm_num [correctedTriple]⟩
  have hnot : ¬ c.length > 10 := by omega
  rw [stage1Scale, if_neg hnot]
  apply List.map_congr_left
  intro v _
  simp only [stage1RowSmall]
  by_cases h60 : v > 60
  · have h30 : v > 30 := by linarith
    simp only [if_pos h60, if_pos h30]
    ring
  · by_cases h30 : v > 30
    · simp only [if_neg h60, if_pos h30]
      ring
    · simp only [if_neg h60, if_neg h30]

/-- C6 witness: the theorem instantiated at the single-row batch of the
claim's scenario. -/
theorem C6_witness :
    stage1Scale [70] =
      ([70] : List ℚ).map
        (fun v => if v > 60 then 4 * v else if v > 30 then 2 * v else v)
    ∧ stage1Scale [70] = [280]
    ∧ spikeTotalOf 1 (some [70]) none = [280]
    ∧ correctedTriple [159 / 2] [120] [321 / 2] [280]
        = ([719 / 2], [400], [881 / 2]) :=
  C6_small_batch_fallback [70] (by decide)

/-- C7: stage-1 cumulative tier multipliers.  For every batch of more than
10 rows, the stage-1 scaling multiplies each raw signal by exactly 1 at or
below the batch's 90th percentile, 2 strictly above the 90th but not the
95th, 3 strictly above the 95th but not the 99th, and 4 strictly above the
99th percentile. -/
theorem C7_stage1_tier_multipliers (c : List ℚ) (h : c.length > 10) :
    stage1Scale c = c.map (fun v =>
      v * (if v ≤ percentile c 90 then 1
           else if v ≤ percentile c 95 then 2
           else if v ≤ percentile c 99 then 3 else 4)) := by
  have h95 : percentile c 90 ≤ percentile c 95 :=
    percentile_mono c 90 95 (by norm_num) (by norm_num) (by norm_num)
  have h99 : percentile c 95 ≤ percentile c 99 :=
    percentile_mono c 95 99 (by norm_num) (by norm_num) (by norm_num)
  rw [stage1Scale, if_pos h]
  apply List.map_congr_left
  intro v _
  simp only [stage1Row]
  by_cases h1 : v > percentile c 90
  · by_cases h2 : v > percentile c 95
    · by_cases h3 : v > percentile c 99
      · rw [if_pos h1, if_pos h2, if_pos h3, if_neg (not_le.mpr h1),
          if_neg (not_le.mpr h2), if_neg (not_le.mpr h3)]
        ring
      · rw [if_pos h1, if_pos h2, if_neg h3, if_neg (not_le.mpr h1),
          if_neg (not_le.mpr h2), if_pos (not_lt.mp h3)]
        ring
    · have h3 : ¬ v > percentile c 99 := fun hc => h2 (lt_of_le_of_lt h99 hc)
      rw [if_pos h1, if_neg h2, if_neg h3, if_neg (not_le.mpr h1),
        if_pos (not_lt.mp h2)]
      try ring
  · have h2 : ¬ v > percentile c 95 := fun hc => h1 (lt_of_le_of_lt h95 hc)
    have h3 : ¬ v > percentile c 99 := fun hc => h2 (lt_of_le_of_lt h99 hc)
    rw [if_neg h1, if_neg h2, if_neg h3, if_pos (not_lt.mp h1)]
    try ring

/-- C7 witness: the theorem instantiated at an 11-row batch, whose
percentiles are 10, 10.5 and 10.9, together with the resulting evaluation
of the scaling. -/
theorem C7_witness :
    ([1, 2, 3, 4, 5, 6, 7, 8, 9, 10, 11] : List ℚ).length > 10
    ∧ stage1Scale [1, 2, 3, 4, 5, 6, 7, 8, 9, 10, 11]
        = ([1, 2, 3, 4, 5, 6, 7, 8, 9, 10, 11] : List ℚ).map (fun v =>
            v * (if v ≤ percentile [1, 2, 3, 4, 5, 6, 7, 8, 9, 10, 11] 90 then 1
                 else if v ≤ percentile [1, 2, 3, 4, 5, 6, 7, 8, 9, 10, 11] 95 then 2
                 else if v ≤ percentile [1, 2, 3, 4, 5, 6, 7, 8, 9, 10, 11] 99 then 3
                 else 4))
    ∧ stage1Scale [1, 2, 3, 4, 5, 6, 7, 8, 9, 10, 11]
        = [1, 2, 3, 4, 5, 6, 7, 8, 9, 10, 44] := by
  have e90 : percentile [1, 2, 3, 4, 5, 6, 7, 8, 9, 10, 11] 90 = 10 := by
    simp only [percentile, linInterp, List.insertionSort, List.orderedInsert]
    norm_num
    simp only [Int.reduceToNat, List.getD_cons_succ, List.getD_cons_zero]
    norm_num
  have e95 : percentile [1, 2, 3, 4, 5, 6, 7, 8, 9, 10, 11] 95 = 21 / 2 := by
    simp only [percentile, linInterp, List.insertionSort, List.orderedInsert]
    norm_num
    simp only [Int.reduceToNat, List.getD_cons_succ, List.getD_cons_zero]
    norm_num
  have e99 : percentile [1, 2, 3, 4, 5, 6, 7, 8, 9, 10, 11] 99 = 109 / 10 := by
    simp only [percentile, linInterp, List.insertionSort, List.orderedInsert]
    norm_num
    simp only [Int.reduceToNat, List.getD_cons_succ, List.getD_cons_zero]
    norm_num
  refine ⟨by norm_num, C7_stage1_tier_multipliers _ (by norm_num), ?_⟩
  norm_num [stage1Scale, stage1Row, e90, e95, e99]

theorem stage1Row_eq_mult (p90 p95 p99 v : ℚ) :
    stage1Row p90 p95 p99 v = v * stage1Mult p90 p95 p99 v := by
  simp only [stage1Row, stage1Mult]
  by_cases h1 : v > p90 <;> by_cases h2 : v > p95 <;> by_cases h3 : v > p99 <;>
    simp only [if_pos, if_neg, h1, h2, h3, if_true, if_false, ite_true,
      ite_false] <;> ring

/-- C8: monotonic escalation.  For every batch of more than 10 rows, the
stage-1 scaling is the raw signal times the cumulative tier multiplier,
and for two rows with signals va < vb where va is above the
90th-percentile tier but not above the 99th, while vb is above the
99th-percentile tier, the multiplier applied to vb is strictly larger. -/
theorem C8_monotonic_escalation (c : List ℚ) (h : c.length > 10)
    (va vb : ℚ) (_ha : va ∈ c) (_hb : vb ∈ c) (_hab : va < vb)
    (h90a : percentile c 90 < va) (h99a : ¬ percentile c 99 < va)
    (h99b : percentile c 99 < vb) :
    stage1Scale c = c.map (fun v =>
      v * stage1Mult (percentile c 90) (percentile c 95) (percentile c 99) v)
    ∧ stage1Mult (percentile c 90) (percentile c 95) (percentile c 99) va
        < stage1Mult (percentile c 90) (percentile c 95) (percentile c 99) vb := by
  have h9095 : percentile c 90 ≤ percentile c 95 :=
    percentile_mono c 90 95 (by norm_num) (by norm_num) (by norm_num)
  have h9599 : percentile c 95 ≤ percentile c 99 :=
    percentile_mono c 95 99 (by norm_num) (by norm_num) (by norm_num)
  constructor
  · rw [stage1Scale, if_pos h]
    exact List.map_congr_left (fun v _ => stage1Row_eq_mult _ _ _ v)
  · have hb95 : percentile c 95 < vb := lt_of_le_of_lt h9599 h99b
    have hb90 : percentile c 90 < vb := lt_of_le_of_lt h9095 hb95
    have hmb : stage1Mult (percentile c 90) (percentile c 95) (percentile c 99) vb
        = 4 := by
      simp only [stage1Mult, if_pos hb90, if_pos hb95, if_pos h99b]
      norm_num
    rw [hmb]
    simp only [stage1Mult, if_pos h90a, if_neg h99a]
    by_cases h95a : va > percentile c 95
    · rw [if_pos h95a]; norm_num
    · rw [if_neg h95a]; norm_num

/-- C8 witness: the theorem instantiated at a 12-row batch with
percentiles 10.45, 14.775 and 18.955, with va = 10.5 in the
90th-percentile tier and vb = 20 above the 99th-percentile tier. -/
theorem C8_witness :
    ([1, 2, 3, 4, 5, 6, 7, 8, 9, 10, 21 / 2, 20] : List ℚ).length > 10
    ∧ (21 / 2 : ℚ) ∈ ([1, 2, 3, 4, 5, 6, 7, 8, 9, 10, 21 / 2, 20] : List ℚ)
    ∧ (20 : ℚ) ∈ ([1, 2, 3, 4, 5, 6, 7, 8, 9, 10, 21 / 2, 20] : List ℚ)
    ∧ (21 / 2 : ℚ) < 20
    ∧ percentile [1, 2, 3, 4, 5, 6, 7, 8, 9, 10, 21 / 2, 20] 90 < 21 / 2
    ∧ ¬ percentile [1, 2, 3, 4, 5, 6, 7, 8, 9, 10, 21 / 2, 20] 99 < 21 / 2
    ∧ percentile [1, 2, 3, 4, 5, 6, 7, 8, 9, 10, 21 / 2, 20] 99 < 20
    ∧ (stage1Scale [1, 2, 3, 4, 5, 6, 7, 8, 9, 10, 21 / 2, 20]
        = ([1, 2, 3, 4, 5, 6, 7, 8, 9, 10, 21 / 2, 20] : List ℚ).map (fun v =>
            v * stage1Mult (percentile [1, 2, 3, 4, 5, 6, 7, 8, 9, 10, 21 / 2, 20] 90)
                (percentile [1, 2, 3, 4, 5, 6, 7, 8, 9, 10, 21 / 2, 20] 95)
                (percentile [1, 2, 3, 4, 5, 6, 7, 8, 9, 10, 21 / 2, 20] 99) v)
      ∧ stage1Mult (percentile [1, 2, 3, 4, 5, 6, 7, 8, 9, 10, 21 / 2, 20] 90)
          (percentile [1, 2, 3, 4, 5, 6, 7, 8, 9, 10, 21 / 2, 20] 95)
          (percentile [1, 2, 3, 4, 5, 6, 7, 8, 9, 10, 21 / 2, 20] 99) (21 / 2)
        < stage1Mult (percentile [1, 2, 3, 4, 5, 6, 7, 8, 9, 10, 21 / 2, 20] 90)
            (percentile [1, 2, 3, 4, 5, 6, 7, 8, 9, 10, 21 / 2, 20] 95)
            (percentile [1, 2, 3, 4, 5, 6, 7, 8, 9, 10, 21 / 2, 20] 99) 20) := by
  have e90 : percentile [1, 2, 3, 4, 5, 6, 7, 8, 9, 10, 21 / 2, 20] 90 = 209 / 20 := by
    simp only [percentile, linInterp, List.insertionSort, List.orderedInsert]
    norm_num
    simp only [Int.reduceToNat, List.getD_cons_succ, List.getD_cons_zero]
    norm_num
  have e99 : percentile [1, 2, 3, 4, 5, 6, 7, 8, 9, 10, 21 / 2, 20] 99 = 3791 / 200 := by
    simp only [percentile, linInterp, List.insertionSort, List.orderedInsert]
    norm_num
    simp only [Int.reduceToNat, List.getD_cons_succ, List.getD_cons_zero]
    norm_num
  refine ⟨by norm_num, by norm_num, by norm_num, by norm_num,
    by rw [e90]; norm_num, by rw [e99]; norm_num, by rw [e99]; norm_num, ?_⟩
  exact C8_monotonic_escalation _ (by norm_num) (21 / 2) 20 (by norm_num)
    (by norm_num) (by norm_num) (by rw [e90]; norm_num) (by rw [e99]; norm_num)
    (by rw [e99]; norm_num)

theorem clampLow_getD (low med : List ℚ) (i : Nat)
    (h1 : i < low.length) (h2 : i < med.length) :
    (clampLow low med).getD i 0 = min (low.getD i 0) (med.getD i 0 - eps) :=
  zipWith_getD _ low med i h1 h2

theorem clampUp_getD (up med : List ℚ) (i : Nat)
    (h1 : i < up.length) (h2 : i < med.length) :
    (clampUp up med).getD i 0 = max (up.getD i 0) (med.getD i 0 + eps) :=
  zipWith_getD _ up med i h1 h2

/-- C4 amended: band widening for extreme predictions applies only inside
the correction branch: when at least one row of the batch has a nonzero
total spike adjustment, every row whose corrected median exceeds the
widening threshold (the batch's 90th-percentile median for more than 10
rows, otherwise the absolute fallback 200) gets its band replaced by
lower = center - 1.5 * half_width and upper = center + 1.5 * half_width
around its own corrected center, and the ordering clamp is applied
afterwards.  (The original claim asserted this for every batch; it fails
when all spike adjustments are zero, see the counterexample.) -/
theorem C4_band_widening (q10v q50v q90v : List ℚ) (sp ex : Option (List ℚ))
    (st low0 med0 up0 : List ℚ)
    (hst : st = spikeTotalOf q50v.length sp ex)
    (hlow : low0 = List.zipWith (· + ·) (q10v.map (fun v => v - 1 / 2)) st)
    (hmed : med0 = List.zipWith (· + ·) q50v st)
    (hup : up0 = List.zipWith (· + ·) (q90v.map (fun v => v + 1 / 2)) st)
    (hnz : anyNonzero st = true)
    (i : Nat) (hl : i < low0.length) (hm : i < med0.length)
    (hu : i < up0.length)
    (hext : med0.getD i 0 > widenThr med0) :
    (predictXgb q10v q50v q90v sp ex).2.1 = med0
    ∧ (predictXgb q10v q50v q90v sp ex).1.getD i 0
        = min ((up0.getD i 0 + low0.getD i 0) / 2
            - (3 / 2) * ((up0.getD i 0 - low0.getD i 0) / 2))
            (med0.getD i 0 - eps)
    ∧ (predictXgb q10v q50v q90v sp ex).2.2.getD i 0
        = max ((up0.getD i 0 + low0.getD i 0) / 2
            + (3 / 2) * ((up0.getD i 0 - low0.getD i 0) / 2))
            (med0.getD i 0 + eps) := by
  have hX : predictXgb q10v q50v q90v sp ex =
      (clampLow (zipWith3 (widenRowLow (widenThr med0)) med0 low0 up0) med0,
       med0,
       clampUp (zipWith3 (widenRowUp (widenThr med0)) med0 low0 up0) med0) := by
    rw [predictXgb_eq, ← hst, afterCorrection_pos _ _ _ _ hnz, ← hlow, ← hmed,
      ← hup]
  refine ⟨by rw [hX], ?_, ?_⟩
  · rw [hX]
    rw [clampLow_getD _ _ i (by rw [zipWith3_length]; omega) hm,
      zipWith3_getD _ med0 low0 up0 i hm hl hu]
    simp only [widenRowLow]
    rw [if_pos hext]
    have harith : (up0.getD i 0 + low0.getD i 0) / 2
          - (up0.getD i 0 - low0.getD i 0) * (3 / 4)
        = (up0.getD i 0 + low0.getD i 0) / 2
          - (3 / 2) * ((up0.getD i 0 - low0.getD i 0) / 2) := by ring
    rw [harith]
  · rw [hX]
    rw [clampUp_getD _ _ i (by rw [zipWith3_length]; omega) hm,
      zipWith3_getD _ med0 low0 up0 i hm hl hu]
    simp only [widenRowUp]
    rw [if_pos hext]
    have harith : (up0.getD i 0 + low0.getD i 0) / 2
          + (up0.getD i 0 - low0.getD i 0) * (3 / 4)
        = (up0.getD i 0 + low0.getD i 0) / 2
          + (3 / 2) * ((up0.getD i 0 - low0.getD i 0) / 2) := by ring
    rw [harith]

/-- C4 counterexample: a single-row batch whose median 250 exceeds the
small-batch fallback threshold 200, with both correction scorers absent:
no widening happens (the lower bound stays 239.5 instead of the widened
234.25 the claim demands), refuting the claim as stated for every
batch. -/
theorem C4_counterexample :
    predictXgb [240] [250] [260] none none = ([479 / 2], [250], [521 / 2])
    ∧ (250 : ℚ) > 200
    ∧ ([250] : List ℚ).length ≤ 10
    ∧ (479 / 2 : ℚ)
        ≠ (521 / 2 + 479 / 2) / 2 - (3 / 2) * ((521 / 2 - 479 / 2) / 2) := by
  refine ⟨?_, by norm_num, by norm_num, by norm_num⟩
  rw [predictXgb_no_spike]
  norm_num [clampLow, clampUp, eps, min_def, max_def]

/-- C4 witness: the amended theorem instantiated at a single-row batch
with stage-1 signal 70, whose corrected median 400 exceeds the fallback
threshold 200, so the band is widened by 50 percent around center 400. -/
theorem C4_witness :
    anyNonzero [(280 : ℚ)] = true
    ∧ ([400] : List ℚ).getD 0 0 > widenThr [400]
    ∧ (predictXgb [80] [120] [160] (some [70]) none).2.1 = [400]
    ∧ (predictXgb [80] [120] [160] (some [70]) none).1.getD 0 0
        = min ((881 / 2 + 719 / 2) / 2 - (3 / 2) * ((881 / 2 - 719 / 2) / 2))
            (400 - eps)
    ∧ (predictXgb [80] [120] [160] (some [70]) none).2.2.getD 0 0
        = max ((881 / 2 + 719 / 2) / 2 + (3 / 2) * ((881 / 2 - 719 / 2) / 2))
            (400 + eps) := by
  have h := C4_band_widening [80] [120] [160] (some [70]) none
    [280] [719 / 2] [400] [881 / 2]
    (by norm_num [spikeTotalOf, stage1Scale, stage1RowSmall, List.replicate])
    (by norm_num) (by norm_num) (by norm_num)
    (by norm_num [anyNonzero])
    0 (by norm_num) (by norm_num) (by norm_num)
    (by norm_num [widenThr, List.getD_cons_zero])
  exact ⟨by norm_num [anyNonzero],
    by norm_num [widenThr, List.getD_cons_zero], h.1, h.2.1, h.2.2⟩

theorem predictXgb_low_clamped (q10v q50v q90v : List ℚ)
    (sp ex : Option (List ℚ)) (i : Nat)
    (hl : i < (predictXgb q10v q50v q90v sp ex).1.length)
    (hm : i < (predictXgb q10v q50v q90v sp ex).2.1.length) :
    (predictXgb q10v q50v q90v sp ex).1.getD i 0
      ≤ (predictXgb q10v q50v q90v sp ex).2.1.getD i 0 - eps := by
  rw [predictXgb_eq] at hl hm ⊢
  simp only [clampLow, List.length_zipWith] at hl
  have h1 : i < (afterCorrection (q10v.map (fun v => v - 1 / 2)) q50v
      (q90v.map (fun v => v + 1 / 2)) (spikeTotalOf q50v.length sp ex)).1.length := by
    omega
  rw [clampLow_getD _ _ i h1 hm]
  exact min_le_right _ _

theorem predictXgb_up_clamped (q10v q50v q90v : List ℚ)
    (sp ex : Option (List ℚ)) (i : Nat)
    (hu : i < (predictXgb q10v q50v q90v sp ex).2.2.length)
    (hm : i < (predictXgb q10v q50v q90v sp ex).2.1.length) :
    (predictXgb q10v q50v q90v sp ex).2.2.getD i 0
      ≥ (predictXgb q10v q50v q90v sp ex).2.1.getD i 0 + eps := by
  rw [predictXgb_eq] at hu hm ⊢
  simp only [clampUp, List.length_zipWith] at hu
  have h1 : i < (afterCorrection (q10v.map (fun v => v - 1 / 2)) q50v
      (q90v.map (fun v => v + 1 / 2)) (spikeTotalOf q50v.length sp ex)).2.2.length := by
    omega
  rw [clampUp_getD _ _ i h1 hm]
  exact le_max_right _ _

/-- C1 amended: the ordering invariant holds in modes xgb and ensemble
with their respective fixed margins (1e-6 for xgb, 1.0 for ensemble), for
all inputs including inverted raw quantiles and regardless of spike
corrections; it does not hold in mode tft, where the secondary-median
blend is applied after the ordering clamp (see the counterexample). -/
theorem C1_ordering_invariant (s : Scorers) (dfFe : Frame) (mode : String)
    (w : ℚ) (t : Triple) (hmode : mode = "xgb" ∨ mode = "ensemble")
    (hok : predictDf s dfFe mode w = .ok t)
    (i : Nat) (hl : i < t.lower.length) (hm : i < t.median.length)
    (hu : i < t.upper.length) :
    (mode = "xgb" → t.lower.getD i 0 ≤ t.median.getD i 0 - eps
       ∧ t.upper.getD i 0 ≥ t.median.getD i 0 + eps)
    ∧ (mode = "ensemble" → t.lower.getD i 0 ≤ t.median.getD i 0 - 1
       ∧ t.upper.getD i 0 ≥ t.median.getD i 0 + 1)
    ∧ t.lower.getD i 0 ≤ t.median.getD i 0
    ∧ t.median.getD i 0 ≤ t.upper.getD i 0 := by
  have heps : (0 : ℚ) < eps := by norm_num [eps]
  rcases hmode with hx | he
  · subst hx
    rw [predictDf_xgb_eq] at hok
    simp only [Except.ok.injEq] at hok
    have hfl : t.lower = (xgbTriple s dfFe).1 := by rw [← hok]
    have hfm : t.median = (xgbTriple s dfFe).2.1 := by rw [← hok]
    have hfu : t.upper = (xgbTriple s dfFe).2.2 := by rw [← hok]
    rw [hfl] at hl
    rw [hfm] at hm
    rw [hfu] at hu
    rw [hfl, hfm, hfu]
    simp only [xgbTriple] at hl hm hu ⊢
    have hlo := predictXgb_low_clamped _ _ _ _ _ i hl hm
    have hup := predictXgb_up_clamped _ _ _ _ _ i hu hm
    exact ⟨fun _ => ⟨hlo, hup⟩, fun hc => absurd hc (by decide),
      le_trans hlo (sub_le_self _ (le_of_lt heps)),
      le_trans (le_add_of_nonneg_right (le_of_lt heps)) hup⟩
  · subst he
    rw [predictDf_ensemble_eq] at hok
    simp only [predictEnsemble] at hok
    split at hok
    · exact absurd hok (by simp)
    · split at hok
      · exact absurd hok (by simp)
      · rename_i tS htS
        simp only [Except.ok.injEq] at hok
        have hfm : t.median = List.zipWith (fun tm m => w * tm + (1 - w) * m)
            (tS (ensembleMatrix dfFe)) (s.q50 (ensembleMatrix dfFe)) := by
          rw [← hok]
        have hfl : t.lower = List.zipWith min
            ((s.q10 (ensembleMatrix dfFe)).map (fun v => v - 1 / 2))
            (t.median.map (fun m => m - 1)) := by
          rw [hfm, ← hok]
        have hfu : t.upper = List.zipWith max
            ((s.q90 (ensembleMatrix dfFe)).map (fun v => v + 1 / 2))
            (t.median.map (fun m => m + 1)) := by
          rw [hfm, ← hok]
        have hbounds : i < ((s.q10 (ensembleMatrix dfFe)).map
            (fun v => v - 1 / 2)).length ∧ i < t.median.length := by
          rw [hfl] at hl
          simp only [List.length_zipWith, List.length_map] at hl
          constructor
          · simp only [List.length_map]; omega
          · omega
        have hbounds2 : i < ((s.q90 (ensembleMatrix dfFe)).map
            (fun v => v + 1 / 2)).length ∧ i < t.median.length := by
          rw [hfu] at hu
          simp only [List.length_zipWith, List.length_map] at hu
          constructor
          · simp only [List.length_map]; omega
          · omega
        have hlo : t.lower.getD i 0 ≤ t.median.getD i 0 - 1 := by
          rw [hfl, zipWith_getD _ _ _ i hbounds.1
            (by simpa using hbounds.2), map_getD _ _ i hbounds.2]
          exact min_le_right _ _
        have hup : t.upper.getD i 0 ≥ t.median.getD i 0 + 1 := by
          rw [hfu, zipWith_getD _ _ _ i hbounds2.1
            (by simpa using hbounds2.2), map_getD _ _ i hbounds2.2]
          exact le_max_right _ _
        exact ⟨fun hc => absurd hc (by decide), fun _ => ⟨hlo, hup⟩,
          le_trans hlo (sub_le_self _ (by norm_num)),
          le_trans (le_add_of_nonneg_right (by norm_num)) hup⟩

/-- C1 counterexample: in mode tft the median is re-blended after the
ordering clamp, so with base quantiles 80, 120, 160 and a TFT median of
1000 the output row is lower = 79.5, median = 648, upper = 160.5 and the
upper bound is below the median, refuting the invariant for every mode. -/
theorem C1_counterexample :
    predictDf (constScorers 80 120 160 (some 1000)) [] "tft" (6 / 10)
      = .ok ⟨[159 / 2], [648], [321 / 2]⟩
    ∧ ¬ ((648 : ℚ) ≤ 321 / 2) := by
  constructor
  · rw [predictDf_tft_eq]
    simp only [constScorers, Option.map_some', Option.map_none', xgbTriple]
    rw [predictXgb_no_spike]
    norm_num [clampLow, clampUp, eps, min_def, max_def]
  · norm_num

/-- C1 witness: the amended theorem applied in mode xgb to a batch with
inverted raw quantiles (q10 = 200 above q90 = 100): the clamp still
produces an ordered row. -/
theorem C1_witness :
    predictDf (constScorers 200 120 100 none) [] "xgb" (6 / 10)
      = .ok ⟨[119999999 / 1000000], [120], [120000001 / 1000000]⟩
    ∧ (("xgb" : String) = "xgb" →
        (119999999 / 1000000 : ℚ) ≤ 120 - eps
        ∧ (120000001 / 1000000 : ℚ) ≥ 120 + eps)
    ∧ (("xgb" : String) = "ensemble" →
        (119999999 / 1000000 : ℚ) ≤ 120 - 1
        ∧ (120000001 / 1000000 : ℚ) ≥ 120 + 1)
    ∧ (119999999 / 1000000 : ℚ) ≤ 120 ∧ (120 : ℚ) ≤ 120000001 / 1000000 := by
  have hok : predictDf (constScorers 200 120 100 none) [] "xgb" (6 / 10)
      = .ok ⟨[119999999 / 1000000], [120], [120000001 / 1000000]⟩ := by
    rw [predictDf_xgb_eq]
    simp only [constScorers, Option.map_none', xgbTriple]
    rw [predictXgb_no_spike]
    norm_num [clampLow, clampUp, eps, min_def, max_def]
  exact ⟨hok, C1_ordering_invariant (constScorers 200 120 100 none) [] "xgb"
    (6 / 10) ⟨[119999999 / 1000000], [120], [120000001 / 1000000]⟩
    (Or.inl rfl) hok 0 (by norm_num) (by norm_num) (by norm_num)⟩

/-- C2 amended: only predict_ensemble blends with the configured weight
(median = w * alt + (1 - w) * base); in mode tft the weight is hardcoded
to 0.6, the output median is 0.6 * alt + 0.4 * base, and the weight_tft
parameter is ignored entirely (the output does not depend on it). -/
theorem C2_blend_weight (s : Scorers) (dfFe : Frame) (w w' : ℚ)
    (tftS : Frame → List ℚ) (ht : s.tft = some tftS) (t t' : Triple)
    (hok : predictEnsemble s dfFe w = .ok t)
    (hok2 : predictDf s dfFe "tft" w = .ok t') :
    t.median = List.zipWith (fun a m => w * a + (1 - w) * m)
        (tftS (ensembleMatrix dfFe)) (s.q50 (ensembleMatrix dfFe))
    ∧ t'.median = List.zipWith (fun a m => (6 / 10) * a + (4 / 10) * m)
        (tftS (prepareFeatures dfFe)) (xgbTriple s dfFe).2.1
    ∧ predictDf s dfFe "tft" w = predictDf s dfFe "tft" w' := by
  refine ⟨?_, ?_, rfl⟩
  · simp only [predictEnsemble, ht] at hok
    split at hok
    · exact absurd hok (by simp)
    · simp only [Except.ok.injEq] at hok
      rw [← hok]
  · rw [predictDf_tft_eq] at hok2
    simp only [ht] at hok2
    simp only [Except.ok.injEq] at hok2
    rw [← hok2]

/-- C2 counterexample: in mode tft with configured weight 0 the returned
median is still the hardcoded blend 0.6 * 100 + 0.4 * 0 = 60, not the
claimed w * alt + (1 - w) * base = 0. -/
theorem C2_counterexample :
    predictDf (constScorers 0 0 100 (some 100)) [] "tft" 0
      = .ok ⟨[-(1 / 2)], [60], [201 / 2]⟩
    ∧ (0 : ℚ) * 100 + (1 - 0) * 0 ≠ 60 := by
  constructor
  · rw [predictDf_tft_eq]
    simp only [constScorers, Option.map_some', Option.map_none', xgbTriple]
    rw [predictXgb_no_spike]
    norm_num [clampLow, clampUp, eps, min_def, max_def]
  · norm_num

/-- C2 witness: the amended theorem applied to constant scorers over the
full feature frame with weights 0.5 and 0.25. -/
theorem C2_witness :
    predictEnsemble (constScorers 0 10 30 (some 20)) fullFrame (1 / 2)
      = .ok ⟨[-(1 / 2)], [15], [61 / 2]⟩
    ∧ predictDf (constScorers 0 10 30 (some 20)) fullFrame "tft" (1 / 2)
      = .ok ⟨[-(1 / 2)], [16], [61 / 2]⟩
    ∧ ((⟨[-(1 / 2)], [15], [61 / 2]⟩ : Triple).median
        = List.zipWith (fun a m => (1 / 2) * a + (1 - 1 / 2) * m)
            ((fun _ => [(20 : ℚ)]) (ensembleMatrix fullFrame))
            ((constScorers 0 10 30 (some 20)).q50 (ensembleMatrix fullFrame))
      ∧ (⟨[-(1 / 2)], [16], [61 / 2]⟩ : Triple).median
        = List.zipWith (fun a m => (6 / 10) * a + (4 / 10) * m)
            ((fun _ => [(20 : ℚ)]) (prepareFeatures fullFrame))
            (xgbTriple (constScorers 0 10 30 (some 20)) fullFrame).2.1
      ∧ predictDf (constScorers 0 10 30 (some 20)) fullFrame "tft" (1 / 2)
        = predictDf (constScorers 0 10 30 (some 20)) fullFrame "tft" (1 / 4)) := by
  have hmiss : ENSEMBLE_FEATURES.filter (fun f => !(Frame.hasCol fullFrame f))
      = [] := by decide
  have hok : predictEnsemble (constScorers 0 10 30 (some 20)) fullFrame (1 / 2)
      = .ok ⟨[-(1 / 2)], [15], [61 / 2]⟩ := by
    simp only [predictEnsemble, hmiss, constScorers, Option.map_some',
      Option.map_none']
    norm_num [min_def, max_def]
  have hok2 : predictDf (constScorers 0 10 30 (some 20)) fullFrame "tft" (1 / 2)
      = .ok ⟨[-(1 / 2)], [16], [61 / 2]⟩ := by
    rw [predictDf_tft_eq]
    simp only [constScorers, Option.map_some', Option.map_none', xgbTriple]
    rw [predictXgb_no_spike]
    norm_num [clampLow, clampUp, eps, min_def, max_def]
  exact ⟨hok, hok2,
    C2_blend_weight (constScorers 0 10 30 (some 20)) fullFrame (1 / 2) (1 / 4)
      (fun _ => [(20 : ℚ)]) rfl _ _ hok hok2⟩

/-- C3 amended: when the secondary median artifact is absent, mode xgb is
unaffected (identical output to a run with the artifact present, median
equal to the unblended XGB-path median), but modes tft and ensemble do
not degrade gracefully: they raise FileNotFoundError from torch.load. -/
theorem C3_graceful_degradation (s : Scorers) (dfFe : Frame) (w : ℚ)
    (tf : Frame → List ℚ) (h : s.tft = none)
    (hfeat : ENSEMBLE_FEATURES.filter (fun f => !(Frame.hasCol dfFe f)) = []) :
    predictDf s dfFe "xgb" w = predictDf { s with tft := some tf } dfFe "xgb" w
    ∧ (predictDf s dfFe "xgb" w).map Triple.median = .ok (xgbTriple s dfFe).2.1
    ∧ predictDf s dfFe "tft" w = .error (.fileNotFound "models/global_tft.pt")
    ∧ predictDf s dfFe "ensemble" w
        = .error (.fileNotFound "models/global_tft.pt") := by
  refine ⟨rfl, rfl, ?_, ?_⟩
  · rw [predictDf_tft_eq, h]
  · rw [predictDf_ensemble_eq]
    simp [predictEnsemble, hfeat, h]

/-- C3 counterexample: with the TFT artifact missing, mode tft raises
FileNotFoundError instead of returning the unblended base median. -/
theorem C3_counterexample :
    predictDf (constScorers 80 120 160 none) [] "tft" (6 / 10)
      = .error (.fileNotFound "models/global_tft.pt") := rfl

/-- C3 witness: the amended theorem applied to constant scorers without a
TFT artifact over the full feature frame. -/
theorem C3_witness :
    predictDf (constScorers 80 120 160 none) fullFrame "xgb" (6 / 10)
      = predictDf { constScorers 80 120 160 none with tft := some (fun _ => [0]) }
          fullFrame "xgb" (6 / 10)
    ∧ (predictDf (constScorers 80 120 160 none) fullFrame "xgb" (6 / 10)).map
        Triple.median
      = .ok (xgbTriple (constScorers 80 120 160 none) fullFrame).2.1
    ∧ predictDf (constScorers 80 120 160 none) fullFrame "tft" (6 / 10)
      = .error (.fileNotFound "models/global_tft.pt")
    ∧ predictDf (constScorers 80 120 160 none) fullFrame "ensemble" (6 / 10)
      = .error (.fileNotFound "models/global_tft.pt") :=
  C3_graceful_degradation (constScorers 80 120 160 none) fullFrame (6 / 10)
    (fun _ => [0]) rfl (by decide)

/-- C9: in mode ensemble the spike cascade, percentile tiering and band
widening are never applied: the output is exactly
median = w * tft + (1 - w) * q50, lower = min(q10 - 0.5, median - 1),
upper = max(q90 + 0.5, median + 1), so every row has lower at least 1.0
below and upper at least 1.0 above the median. -/
theorem C9_ensemble_mode (s : Scorers) (dfFe : Frame) (w : ℚ) (t : Triple)
    (hok : predictDf s dfFe "ensemble" w = .ok t) :
    (∃ tftS, s.tft = some tftS
      ∧ t.median = List.zipWith (fun a m => w * a + (1 - w) * m)
          (tftS (ensembleMatrix dfFe)) (s.q50 (ensembleMatrix dfFe))
      ∧ t.lower = List.zipWith min
          ((s.q10 (ensembleMatrix dfFe)).map (fun v => v - 1 / 2))
          (t.median.map (fun m => m - 1))
      ∧ t.upper = List.zipWith max
          ((s.q90 (ensembleMatrix dfFe)).map (fun v => v + 1 / 2))
          (t.median.map (fun m => m + 1)))
    ∧ (∀ i, i < t.lower.length → i < t.median.length →
        t.lower.getD i 0 ≤ t.median.getD i 0 - 1)
    ∧ (∀ i, i < t.upper.length → i < t.median.length →
        t.upper.getD i 0 ≥ t.median.getD i 0 + 1) := by
  rw [predictDf_ensemble_eq] at hok
  simp only [predictEnsemble] at hok
  split at hok
  · exact absurd hok (by simp)
  · split at hok
    · exact absurd hok (by simp)
    · rename_i tS htS
      simp only [Except.ok.injEq] at hok
      have hfm : t.median = List.zipWith (fun a m => w * a + (1 - w) * m)
          (tS (ensembleMatrix dfFe)) (s.q50 (ensembleMatrix dfFe)) := by
        rw [← hok]
      have hfl : t.lower = List.zipWith min
          ((s.q10 (ensembleMatrix dfFe)).map (fun v => v - 1 / 2))
          (t.median.map (fun m => m - 1)) := by
        rw [hfm, ← hok]
      have hfu : t.upper = List.zipWith max
          ((s.q90 (ensembleMatrix dfFe)).map (fun v => v + 1 / 2))
          (t.median.map (fun m => m + 1)) := by
        rw [hfm, ← hok]
      refine ⟨⟨tS, htS, hfm, hfl, hfu⟩, ?_, ?_⟩
      · intro i h1 h2
        rw [hfl] at h1
        simp only [List.length_zipWith, List.length_map] at h1
        have hb1 : i < ((s.q10 (ensembleMatrix dfFe)).map
            (fun v => v - 1 / 2)).length := by
          simp only [List.length_map]; omega
        rw [hfl, zipWith_getD _ _ _ i hb1 (by simpa using h2),
          map_getD _ _ i h2]
        exact min_le_right _ _
      · intro i h1 h2
        rw [hfu] at h1
        simp only [List.length_zipWith, List.length_map] at h1
        have hb1 : i < ((s.q90 (ensembleMatrix dfFe)).map
            (fun v => v + 1 / 2)).length := by
          simp only [List.length_map]; omega
        rw [hfu, zipWith_getD _ _ _ i hb1 (by simpa using h2),
          map_getD _ _ i h2]
        exact le_max_right _ _

/-- C9 witness: the theorem applied to constant scorers over the full
feature frame with weight 0.5. -/
theorem C9_witness :
    predictDf (constScorers 0 10 30 (some 20)) fullFrame "ensemble" (1 / 2)
      = .ok ⟨[-(1 / 2)], [15], [61 / 2]⟩
    ∧ ([-(1 / 2)] : List ℚ).getD 0 0 ≤ ([15] : List ℚ).getD 0 0 - 1
    ∧ ([61 / 2] : List ℚ).getD 0 0 ≥ ([15] : List ℚ).getD 0 0 + 1
    ∧ (∃ tftS, (constScorers 0 10 30 (some 20)).tft = some tftS
        ∧ (⟨[-(1 / 2)], [15], [61 / 2]⟩ : Triple).median
          = List.zipWith (fun a m => (1 / 2) * a + (1 - 1 / 2) * m)
              (tftS (ensembleMatrix fullFrame))
              ((constScorers 0 10 30 (some 20)).q50 (ensembleMatrix fullFrame))) := by
  have hmiss : ENSEMBLE_FEATURES.filter (fun f => !(Frame.hasCol fullFrame f))
      = [] := by decide
  have hok : predictDf (constScorers 0 10 30 (some 20)) fullFrame "ensemble"
      (1 / 2) = .ok ⟨[-(1 / 2)], [15], [61 / 2]⟩ := by
    rw [predictDf_ensemble_eq]
    simp only [predictEnsemble, hmiss, constScorers, Option.map_some',
      Option.map_none']
    norm_num [min_def, max_def]
  have h := C9_ensemble_mode (constScorers 0 10 30 (some 20)) fullFrame (1 / 2)
    ⟨[-(1 / 2)], [15], [61 / 2]⟩ hok
  refine ⟨hok, h.2.1 0 (by norm_num) (by norm_num),
    h.2.2 0 (by norm_num) (by norm_num), ?_⟩
  obtain ⟨tftS, h1, h2, _, _⟩ := h.1
  exact ⟨tftS, h1, h2⟩

/-- C10: missing feature columns are handled oppositely by the two entry
paths: for an engineered frame lacking an expected feature column,
predict_df in mode xgb (and tft, when the TFT artifact is present) fills
the missing column with zeros and returns predictions without raising,
while mode ensemble raises a ValueError naming the missing features. -/
theorem C10_missing_features (s : Scorers) (dfFe : Frame) (w : ℚ)
    (f0 : String) (hmem : f0 ∈ XGB_FEATURES) (hmiss : dfFe.lookup f0 = none) :
    (prepareFeatures dfFe).lookup f0
        = some (List.replicate (Frame.nrows dfFe) 0)
    ∧ (∃ t, predictDf s dfFe "xgb" w = .ok t)
    ∧ (∀ tf, s.tft = some tf → ∃ t, predictDf s dfFe "tft" w = .ok t)
    ∧ (∃ miss, predictDf s dfFe "ensemble" w
          = .error (.missingFeatures miss) ∧ f0 ∈ miss ∧ miss ≠ []) := by
  refine ⟨?_, ⟨_, predictDf_xgb_eq s dfFe w⟩, ?_, ?_⟩
  · have hlk := lookup_map_pair
      (fun f => (dfFe.lookup f).getD (List.replicate (Frame.nrows dfFe) 0))
      f0 XGB_FEATURES hmem
    simpa [prepareFeatures, hmiss] using hlk
  · intro tf htf
    exact ⟨⟨(xgbTriple s dfFe).1,
            List.zipWith (fun tm m => (6 / 10) * tm + (4 / 10) * m)
              (tf (prepareFeatures dfFe)) (xgbTriple s dfFe).2.1,
            (xgbTriple s dfFe).2.2⟩,
           by rw [predictDf_tft_eq, htf]⟩
  · have hf0 : f0 ∈ ENSEMBLE_FEATURES.filter (fun f => !(Frame.hasCol dfFe f)) :=
      List.mem_filter.mpr ⟨features_eq ▸ hmem, by simp [Frame.hasCol, hmiss]⟩
    have hne := List.ne_nil_of_mem hf0
    refine ⟨_, ?_, hf0, hne⟩
    rw [predictDf_ensemble_eq]
    simp only [predictEnsemble]
    rw [if_pos hne]

/-- C10 witness: the theorem applied to an empty engineered frame, which
lacks the expected feature column aqi. -/
theorem C10_witness :
    (prepareFeatures []).lookup "aqi"
        = some (List.replicate (Frame.nrows []) 0)
    ∧ (∃ t, predictDf (constScorers 80 120 160 (some 5)) [] "xgb" (6 / 10)
        = .ok t)
    ∧ (∀ tf, (constScorers 80 120 160 (some 5)).tft = some tf →
        ∃ t, predictDf (constScorers 80 120 160 (some 5)) [] "tft" (6 / 10)
          = .ok t)
    ∧ (∃ miss, predictDf (constScorers 80 120 160 (some 5)) [] "ensemble" (6 / 10)
          = .error (.missingFeatures miss) ∧ "aqi" ∈ miss ∧ miss ≠ []) :=
  C10_missing_features (constScorers 80 120 160 (some 5)) [] (6 / 10) "aqi"
    (by decide) rfl

end AgentsAI
